import Mathlib

/-!
Verification development for the stock-transfer and stock-mutation core of the
StockTrack warehouse backend.

The mutable store is modelled as an explicit `State` value: the per-(warehouse,
item) quantity rows (`Balances`, an association list mirroring the unique
`warehouseId_inventoryId` key), the append-only movement log, the transfer
requests and the sales.  Each controller that mutates stock is translated into
a function `... → State → Except Err State`; a database transaction is a single
state transformer, so `Except.error` means the whole unit was rolled back and
no new state exists.  Free-text remarks, timestamps and monetary fields are
elided; quantities are `Int` as in the SQL schema (`"quantity" INTEGER`, with
no CHECK constraint, so negative values are storable).
-/

namespace StockTrack

/-- Movement-log action kinds, as in the InventoryLog rows written by the
controllers. -/
inductive ActionKind
  | ADD
  | REMOVE
  | TRANSFER_OUT
  | TRANSFER_IN
  | ADJUSTMENT
  | SALE
deriving DecidableEq, Repr

/-- Actor roles. -/
inductive Role
  | ADMIN
  | MANAGER
  | STAFF
deriving DecidableEq, Repr

/-- Transfer-request lifecycle states. -/
inductive TRStatus
  | PENDING
  | APPROVED
  | REJECTED
  | COMPLETED
  | CANCELLED
deriving DecidableEq, Repr

/-- Sale lifecycle states. -/
inductive SaleStatus
  | COMPLETED
  | CANCELLED
deriving DecidableEq, Repr

/-- One InventoryLog row (remarks and timestamp elided). -/
structure LogEntry where
  inventoryId : Nat
  warehouseId : Nat
  action : ActionKind
  quantity : Int
  previousQty : Int
  newQty : Int
  userId : Nat
deriving DecidableEq, Repr

/-- The WarehouseInventory table: rows keyed by (warehouseId, inventoryId). -/
abbrev Balances := List ((Nat × Nat) × Int)

/-- `findUnique` / `findFirst` on the (warehouseId, inventoryId) key. -/
def findRow : Balances → Nat → Nat → Option Int
  | [], _, _ => none
  | r :: rs, w, i => if r.1 = (w, i) then some r.2 else findRow rs w i

/-- `update` on the (warehouseId, inventoryId) key: rewrites the first matching
row's quantity. -/
def setRow : Balances → Nat → Nat → Int → Balances
  | [], _, _, _ => []
  | r :: rs, w, i, q => if r.1 = (w, i) then ((w, i), q) :: rs else r :: setRow rs w i q

/-- `create`: inserts a fresh row (only ever called when the key is absent). -/
def createRow (b : Balances) (w i : Nat) (q : Int) : Balances :=
  ((w, i), q) :: b

/-- One TransferItem line of a transfer request. -/
structure TransferLine where
  inventoryId : Nat
  quantity : Int
deriving DecidableEq, Repr

/-- A TransferRequest row (request number and timestamps elided; `approvedAt`
abstracted to a `Nat` clock value). -/
structure TransferRequest where
  id : Nat
  fromWarehouseId : Nat
  toWarehouseId : Nat
  status : TRStatus
  createdById : Nat
  approvedById : Option Nat
  approvedAt : Option Nat
  reason : Option String
  items : List TransferLine
deriving DecidableEq, Repr

/-- One SaleItem line (prices elided). -/
structure SaleItem where
  inventoryId : Nat
  quantity : Int
deriving DecidableEq, Repr

/-- A Sale row (sale number, customer and monetary fields elided). -/
structure Sale where
  id : Nat
  warehouseId : Nat
  status : SaleStatus
  items : List SaleItem
deriving DecidableEq, Repr

/-- The whole mutable store: catalog ids, balances, log, requests, sales. -/
structure State where
  inventories : List Nat
  warehouses : List Nat
  balances : Balances
  log : List LogEntry
  transfers : List TransferRequest
  sales : List Sale
deriving DecidableEq, Repr

/-- Spec 4.1 `getBalance`: an absent row reads as quantity 0. -/
def getBalance (s : State) (w i : Nat) : Int :=
  (findRow s.balances w i).getD 0

/-- Failure outcomes surfaced by the controllers (HTTP codes elided).
`txAborted` stands for a runtime error inside a transaction callback, which
Prisma rolls back. -/
inductive Err
  | notFound
  | invalidQuantity
  | invalidState
  | forbidden
  | emptyItems
  | notInWarehouse
  | insufficientStock (available : Int)
  | txAborted
deriving DecidableEq, Repr

/-- `findUnique` on TransferRequest.id. -/
def findTransfer : List TransferRequest → Nat → Option TransferRequest
  | [], _ => none
  | t :: ts, rid => if t.id = rid then some t else findTransfer ts rid

/-- `update` on TransferRequest.id. -/
def updateTransfer : List TransferRequest → Nat → (TransferRequest → TransferRequest) → List TransferRequest
  | [], _, _ => []
  | t :: ts, rid, f => (if t.id = rid then f t else t) :: updateTransfer ts rid f

/-- `findUnique` on Sale.id. -/
def findSale : List Sale → Nat → Option Sale
  | [], _ => none
  | x :: xs, sid => if x.id = sid then some x else findSale xs sid

/-- `update` on Sale.id. -/
def updateSale : List Sale → Nat → (Sale → Sale) → List Sale
  | [], _, _ => []
  | x :: xs, sid, f => (if x.id = sid then f x else x) :: updateSale xs sid f

/-- Net committed state of a controller call: the new state on success, the
unchanged pre-state when the call failed (rolled back / rejected). -/
def commit (r : Except Err State) (s : State) : State :=
  match r with
  | .ok s' => s'
  | .error _ => s

/-- inventory.controller `assignInventoryToWarehouse`: rejects a negative
quantity, upserts the balance row, logs one ADD entry. -/
def assignInventoryToWarehouse (uid inventoryId warehouseId : Nat) (qty : Int) (s : State) : Except Err State :=
  if qty < 0 then .error .invalidQuantity
  else if inventoryId ∈ s.inventories then
    if warehouseId ∈ s.warehouses then
      match findRow s.balances warehouseId inventoryId with
      | some p =>
        .ok { s with
          balances := setRow s.balances warehouseId inventoryId (p + qty),
          log := s.log ++ [⟨inventoryId, warehouseId, .ADD, qty, p, p + qty, uid⟩] }
      | none =>
        .ok { s with
          balances := createRow s.balances warehouseId inventoryId qty,
          log := s.log ++ [⟨inventoryId, warehouseId, .ADD, qty, 0, qty, uid⟩] }
    else .error .notFound
  else .error .notFound

/-- inventory.controller `adjustInventoryQuantity`: requires an existing row,
rejects a result below zero, logs one ADJUSTMENT entry whose quantity is the
magnitude of the signed adjustment. -/
def adjustInventoryQuantity (uid warehouseId inventoryId : Nat) (qty : Int) (s : State) : Except Err State :=
  match findRow s.balances warehouseId inventoryId with
  | none => .error .notFound
  | some q =>
    if q + qty < 0 then .error (.insufficientStock q)
    else
      .ok { s with
        balances := setRow s.balances warehouseId inventoryId (q + qty),
        log := s.log ++ [⟨inventoryId, warehouseId, .ADJUSTMENT, |qty|, q, q + qty, uid⟩] }

/-- sales.controller `createSale` pre-check loop: first line whose row is
missing reports "not available", first line with too little stock reports the
available quantity. -/
def saleCheck (b : Balances) (w : Nat) : List SaleItem → Option Err
  | [] => none
  | it :: its =>
    match findRow b w it.inventoryId with
    | none => some .notInWarehouse
    | some q => if q < it.quantity then some (.insufficientStock q) else saleCheck b w its

/-- One debit step of the `createSale` transaction body: re-reads the row,
writes `quantity − item.quantity`, logs one SALE entry.  A missing row would be
a null dereference in the source, aborting the transaction (`none`). -/
def saleLeg (uid w : Nat) (it : SaleItem) (s : State) : Option State :=
  match findRow s.balances w it.inventoryId with
  | none => none
  | some q =>
    some { s with
      balances := setRow s.balances w it.inventoryId (q - it.quantity),
      log := s.log ++ [⟨it.inventoryId, w, .SALE, it.quantity, q, q - it.quantity, uid⟩] }

/-- The `createSale` transaction's per-item loop, in array order. -/
def runSaleLines (uid w : Nat) : List SaleItem → State → Option State
  | [], s => some s
  | it :: its, s =>
    match saleLeg uid w it s with
    | none => none
    | some s' => runSaleLines uid w its s'

/-- sales.controller `createSale`: validations, per-line stock pre-check, then
one transaction creating the COMPLETED sale and debiting every line. -/
def createSale (uid : Nat) (role : Role) (userWarehouseId : Option Nat)
    (saleId warehouseId : Nat) (items : List SaleItem) (s : State) : Except Err State :=
  if items = [] then .error .emptyItems
  else if role = .STAFF ∧ userWarehouseId ≠ some warehouseId then .error .forbidden
  else if warehouseId ∈ s.warehouses then
    match saleCheck s.balances warehouseId items with
    | some e => .error e
    | none =>
      match runSaleLines uid warehouseId items
          { s with sales := ⟨saleId, warehouseId, .COMPLETED, items⟩ :: s.sales } with
      | none => .error .txAborted
      | some s' => .ok s'
  else .error .notFound

/-- One restore step of the `cancelSale` transaction body: credits the line
back and logs one ADJUSTMENT entry, but only when the row exists — an absent
row is silently skipped. -/
def restoreLine (uid w : Nat) (it : SaleItem) (s : State) : State :=
  match findRow s.balances w it.inventoryId with
  | none => s
  | some q =>
    { s with
      balances := setRow s.balances w it.inventoryId (q + it.quantity),
      log := s.log ++ [⟨it.inventoryId, w, .ADJUSTMENT, it.quantity, q, q + it.quantity, uid⟩] }

/-- sales.controller `cancelSale`: staff forbidden, already-cancelled sales
rejected, otherwise one transaction flipping the status and restoring each
line whose row exists. -/
def cancelSale (uid : Nat) (role : Role) (saleId : Nat) (s : State) : Except Err State :=
  if role = .STAFF then .error .forbidden
  else
    match findSale s.sales saleId with
    | none => .error .notFound
    | some sale =>
      if sale.status = .CANCELLED then .error .invalidState
      else
        .ok (sale.items.foldl
          (fun st it => restoreLine uid sale.warehouseId it st)
          { s with sales := updateSale s.sales saleId (fun x => { x with status := .CANCELLED }) })

/-- transferRequest.controller `approveTransferRequest` re-validation loop:
returns the reported available quantity (`warehouseInventory?.quantity || 0`)
of the first short line, `none` when every line passes. -/
def recheckLines (b : Balances) (src : Nat) : List TransferLine → Option Int
  | [] => none
  | l :: ls =>
    match findRow b src l.inventoryId with
    | none => some 0
    | some q => if q < l.quantity then some q else recheckLines b src ls

/-- One item of the approval transaction: debit the source row, log
TRANSFER_OUT, credit the destination row (creating it with the transferred
quantity when absent), log TRANSFER_IN.  A missing source row would be a null
dereference in the source, aborting the transaction. -/
def transferLeg (uid src dst : Nat) (l : TransferLine) (s : State) : Option State :=
  match findRow s.balances src l.inventoryId with
  | none => none
  | some fq =>
    let b1 := setRow s.balances src l.inventoryId (fq - l.quantity)
    let e1 : LogEntry := ⟨l.inventoryId, src, .TRANSFER_OUT, l.quantity, fq, fq - l.quantity, uid⟩
    match findRow b1 dst l.inventoryId with
    | some tq =>
      some { s with
        balances := setRow b1 dst l.inventoryId (tq + l.quantity),
        log := s.log ++ [e1, ⟨l.inventoryId, dst, .TRANSFER_IN, l.quantity, tq, tq + l.quantity, uid⟩] }
    | none =>
      some { s with
        balances := createRow b1 dst l.inventoryId l.quantity,
        log := s.log ++ [e1, ⟨l.inventoryId, dst, .TRANSFER_IN, l.quantity, 0, l.quantity, uid⟩] }

/-- The approval transaction's per-item loop, in array order. -/
def runTransferLines (uid src dst : Nat) : List TransferLine → State → Option State
  | [], s => some s
  | l :: ls, s =>
    match transferLeg uid src dst l s with
    | none => none
    | some s' => runTransferLines uid src dst ls s'

/-- transferRequest.controller `approveTransferRequest`: PENDING only,
re-validates every line, then one transaction that marks the request APPROVED
with approver and time, moves every line, and marks it COMPLETED. -/
def approveTransferRequest (adminId now rid : Nat) (s : State) : Except Err State :=
  match findTransfer s.transfers rid with
  | none => .error .notFound
  | some r =>
    if r.status = .PENDING then
      match recheckLines s.balances r.fromWarehouseId r.items with
      | some avail => .error (.insufficientStock avail)
      | none =>
        match runTransferLines adminId r.fromWarehouseId r.toWarehouseId r.items
            { s with transfers := updateTransfer s.transfers rid (fun t =>
                { t with status := .APPROVED, approvedById := some adminId, approvedAt := some now }) } with
        | none => .error .txAborted
        | some s' =>
          .ok { s' with transfers := updateTransfer s'.transfers rid (fun t => { t with status := .COMPLETED }) }
    else .error .invalidState

/-- transferRequest.controller `rejectTransferRequest`: PENDING only; records
approver, time and (when given) a new reason; touches nothing else. -/
def rejectTransferRequest (adminId now rid : Nat) (reason : Option String) (s : State) : Except Err State :=
  match findTransfer s.transfers rid with
  | none => .error .notFound
  | some r =>
    if r.status = .PENDING then
      .ok { s with transfers := updateTransfer s.transfers rid (fun t =>
        { t with status := .REJECTED, approvedById := some adminId, approvedAt := some now,
                 reason := match reason with | some x => some x | none => t.reason }) }
    else .error .invalidState

/-- transferRequest.controller `cancelTransferRequest`: PENDING only; a
manager may cancel only their own request; flips the status and nothing
else. -/
def cancelTransferRequest (uid : Nat) (role : Role) (rid : Nat) (s : State) : Except Err State :=
  match findTransfer s.transfers rid with
  | none => .error .notFound
  | some r =>
    if r.status = .PENDING then
      if role = .MANAGER ∧ r.createdById ≠ uid then .error .forbidden
      else .ok { s with transfers := updateTransfer s.transfers rid (fun t => { t with status := .CANCELLED }) }
    else .error .invalidState

/-- The signed contribution of one transfer line to the balance of
(warehouse `w`, item `i`): `+quantity` at the destination, `−quantity` at the
source. -/
def lineDelta (src dst : Nat) (l : TransferLine) (w i : Nat) : Int :=
  (if w = dst ∧ i = l.inventoryId then l.quantity else 0)
    - (if w = src ∧ i = l.inventoryId then l.quantity else 0)

/-- The signed contribution of a whole line list to the balance of `(w, i)`. -/
def transferDelta (src dst : Nat) (ls : List TransferLine) (w i : Nat) : Int :=
  (ls.map (fun l => lineDelta src dst l w i)).sum

/-- Spec 3 MovementLogEntry invariant: `newQty = previousQty ± quantity`
consistent with the action kind. -/
def logConsistent (e : LogEntry) : Bool :=
  match e.action with
  | .ADD | .TRANSFER_IN => e.newQty == e.previousQty + e.quantity
  | .REMOVE | .TRANSFER_OUT | .SALE => e.newQty == e.previousQty - e.quantity
  | .ADJUSTMENT =>
      (e.newQty == e.previousQty + e.quantity) || (e.newQty == e.previousQty - e.quantity)

/-- A transfer line that fails the approval re-check: its source row is absent
or holds less than the requested quantity. -/
def lineShort (b : Balances) (src : Nat) (l : TransferLine) : Bool :=
  match findRow b src l.inventoryId with
  | none => true
  | some q => decide (q < l.quantity)

/-- A sale line that fails the `createSale` pre-check: its row is absent or
holds less than the requested quantity. -/
def saleLineShort (b : Balances) (w : Nat) (it : SaleItem) : Bool :=
  match findRow b w it.inventoryId with
  | none => true
  | some q => decide (q < it.quantity)

/-- How many balance rows a sale cancellation touches: the lines whose
(warehouse, item) row exists; absent rows are skipped. -/
def restoredCount (b : Balances) (w : Nat) : List SaleItem → Nat
  | [] => 0
  | it :: its => (if (findRow b w it.inventoryId).isSome then 1 else 0) + restoredCount b w its

deriving instance DecidableEq for Except

/-! Concrete stores used to evaluate the operations on explicit inputs. -/

/-- Empty store with catalog item 1 and warehouse 1. -/
def initState : State := ⟨[1], [1], [], [], [], []⟩

/-- Sale lines naming the same item twice, each line within the stock on hand. -/
def dupSaleItems : List SaleItem := [⟨1, 7⟩, ⟨1, 7⟩]

/-- Store after assigning 10 units of item 1 to warehouse 1. -/
def s_assigned : State := commit (assignInventoryToWarehouse 9 1 1 10 initState) initState

/-- Store after the duplicate-line sale commits. -/
def s_sold : State := commit (createSale 9 .ADMIN none 1 1 dupSaleItems s_assigned) s_assigned

/-- Store holding 5 units of item 1 in warehouse 1. -/
def c8State : State := ⟨[1], [1], [((1, 1), 5)], [], [], []⟩

/-- Store after assigning a zero quantity on `c8State`. -/
def c8After : State := commit (assignInventoryToWarehouse 9 1 1 0 c8State) c8State

/-- A pending one-line transfer request: 3 units of item 1, warehouse 1 → 2. -/
def wTransfer : TransferRequest := ⟨1, 1, 2, .PENDING, 5, none, none, none, [⟨1, 3⟩]⟩

/-- Store with `wTransfer` pending and 10 units on hand at the source. -/
def wState : State := ⟨[1], [1, 2], [((1, 1), 10)], [], [wTransfer], []⟩

/-- Store after approving `wTransfer` on `wState`. -/
def wApproved : State := commit (approveTransferRequest 7 100 1 wState) wState

/-- Store with `wTransfer` pending but only 2 units on hand at the source. -/
def w5State : State := ⟨[1], [1, 2], [((1, 1), 2)], [], [wTransfer], []⟩

/-- A transfer request already in a terminal state. -/
def w7Transfer : TransferRequest := ⟨1, 1, 2, .COMPLETED, 5, none, none, none, [⟨1, 3⟩]⟩

/-- Store with the completed request `w7Transfer`. -/
def w7State : State := ⟨[1], [1, 2], [], [], [w7Transfer], []⟩

/-- An already-cancelled sale. -/
def w7Sale : Sale := ⟨1, 1, .CANCELLED, [⟨1, 2⟩]⟩

/-- Store with the cancelled sale `w7Sale`. -/
def w7SaleState : State := ⟨[1], [1], [], [], [], [w7Sale]⟩

/-- Store after adjusting item 1 in warehouse 1 by −2 on `c8State`. -/
def w6Adjusted : State := commit (adjustInventoryQuantity 9 1 1 (-2) c8State) c8State

/-- A one-line sale request within stock. -/
def w6SaleItems : List SaleItem := [⟨1, 2⟩]

/-- Store after the one-line sale commits on `c8State`. -/
def w6SoldState : State := commit (createSale 9 .ADMIN none 1 1 w6SaleItems c8State) c8State

/-- A completed sale whose second line's balance row is absent. -/
def w6CancelSale : Sale := ⟨1, 1, .COMPLETED, [⟨1, 2⟩, ⟨2, 3⟩]⟩

/-- Store with `w6CancelSale` recorded but no row for item 2. -/
def w6CancelState : State := ⟨[1, 2], [1], [((1, 1), 5)], [], [], [w6CancelSale]⟩

/-- Store after cancelling `w6CancelSale`. -/
def w6Cancelled : State := commit (cancelSale 9 .ADMIN 1 w6CancelState) w6CancelState

/-- A completed sale whose second line's balance row is absent (C10 instance). -/
def c10Sale : Sale := ⟨1, 1, .COMPLETED, [⟨1, 2⟩, ⟨2, 3⟩]⟩

/-- Store with `c10Sale` recorded, a row for item 1 only. -/
def c10State : State := ⟨[1, 2], [1], [((1, 1), 5)], [], [], [c10Sale]⟩

/-- Store after cancelling `c10Sale`. -/
def c10After : State := commit (cancelSale 9 .ADMIN 1 c10State) c10State

/-! Helper lemmas about the balance-row primitives. -/

theorem findRow_setRow_self (b : Balances) (w i : Nat) (q : Int)
    (h : (findRow b w i).isSome) : findRow (setRow b w i q) w i = some q := by
  induction b with
  | nil => simp [findRow] at h
  | cons r rs ih =>
    by_cases hr : r.1 = (w, i)
    · simp [findRow, setRow, hr]
    · simp only [findRow, setRow, hr, if_false, if_neg hr] at h ⊢
      exact ih h

theorem setRow_of_not_found (b : Balances) (w i : Nat) (q : Int)
    (h : findRow b w i = none) : setRow b w i q = b := by
  induction b with
  | nil => simp [setRow]
  | cons r rs ih =>
    by_cases hr : r.1 = (w, i)
    · simp [findRow, hr] at h
    · simp only [findRow, hr, if_neg hr] at h
      simp [setRow, hr, ih h]

theorem findRow_setRow_ne (b : Balances) (w i w' i' : Nat) (q : Int)
    (h : ¬ (w' = w ∧ i' = i)) : findRow (setRow b w i q) w' i' = findRow b w' i' := by
  have hpair : ((w, i) : Nat × Nat) ≠ (w', i') := by
    intro hp
    exact h ⟨(Prod.mk.injEq _ _ _ _ ▸ hp).1.symm, (Prod.mk.injEq _ _ _ _ ▸ hp).2.symm⟩
  induction b with
  | nil => simp [setRow]
  | cons r rs ih =>
    by_cases hr : r.1 = (w, i)
    · have hr' : r.1 ≠ (w', i') := by rw [hr]; exact hpair
      simp [findRow, setRow, hr, hr', hpair]
    · simp [findRow, setRow, hr, ih]

theorem isSome_findRow_setRow (b : Balances) (w i w' i' : Nat) (q : Int) :
    (findRow (setRow b w i q) w' i').isSome = (findRow b w' i').isSome := by
  by_cases h : w' = w ∧ i' = i
  · obtain ⟨rfl, rfl⟩ := h
    cases hf : findRow b w' i' with
    | none => rw [setRow_of_not_found b w' i' q hf, hf]
    | some p => simp [findRow_setRow_self b w' i' q (by simp [hf]), hf]
  · rw [findRow_setRow_ne b w i w' i' q h]

theorem findRow_createRow (b : Balances) (w i w' i' : Nat) (q : Int) :
    findRow (createRow b w i q) w' i'
      = if w' = w ∧ i' = i then some q else findRow b w' i' := by
  by_cases h : w' = w ∧ i' = i
  · obtain ⟨rfl, rfl⟩ := h
    simp [createRow, findRow]
  · have hpair : ((w, i) : Nat × Nat) ≠ (w', i') := by
      intro hp
      exact h ⟨(Prod.mk.injEq _ _ _ _ ▸ hp).1.symm, (Prod.mk.injEq _ _ _ _ ▸ hp).2.symm⟩
    simp [createRow, findRow, hpair, h]

theorem getD_findRow_setRow (b : Balances) (w i : Nat) (q : Int)
    (hfound : (findRow b w i).isSome) (w' i' : Nat) :
    (findRow (setRow b w i q) w' i').getD 0
      = if w' = w ∧ i' = i then q else (findRow b w' i').getD 0 := by
  by_cases h : w' = w ∧ i' = i
  · obtain ⟨rfl, rfl⟩ := h
    rw [findRow_setRow_self b w' i' q hfound]
    simp
  · rw [findRow_setRow_ne b w i w' i' q h, if_neg h]

/-! Lemmas about one transfer line of the approval transaction. -/

theorem transferLeg_total (uid src dst : Nat) (l : TransferLine) (s : State)
    (h : (findRow s.balances src l.inventoryId).isSome) :
    ∃ s', transferLeg uid src dst l s = some s' := by
  obtain ⟨fq, hfq⟩ := Option.isSome_iff_exists.mp h
  cases hx : transferLeg uid src dst l s with
  | some s' => exact ⟨s', rfl⟩
  | none =>
    exfalso
    revert hx
    simp only [transferLeg, hfq]
    cases hd : findRow (setRow s.balances src l.inventoryId (fq - l.quantity)) dst l.inventoryId <;>
      simp

theorem transferLeg_frame (uid src dst : Nat) (l : TransferLine) (s s' : State)
    (h : transferLeg uid src dst l s = some s') :
    s'.transfers = s.transfers ∧ s'.sales = s.sales ∧
      s'.inventories = s.inventories ∧ s'.warehouses = s.warehouses := by
  cases hfq : findRow s.balances src l.inventoryId with
  | none => simp [transferLeg, hfq] at h
  | some fq =>
    cases hd : findRow (setRow s.balances src l.inventoryId (fq - l.quantity)) dst l.inventoryId with
    | none =>
      simp [transferLeg, hfq, hd] at h
      subst h; exact ⟨rfl, rfl, rfl, rfl⟩
    | some tq =>
      simp [transferLeg, hfq, hd] at h
      subst h; exact ⟨rfl, rfl, rfl, rfl⟩

theorem transferLeg_log (uid src dst : Nat) (l : TransferLine) (s s' : State)
    (h : transferLeg uid src dst l s = some s') :
    ∃ e1 e2 : LogEntry, s'.log = s.log ++ [e1, e2] ∧
      logConsistent e1 = true ∧ logConsistent e2 = true := by
  cases hfq : findRow s.balances src l.inventoryId with
  | none => simp [transferLeg, hfq] at h
  | some fq =>
    cases hd : findRow (setRow s.balances src l.inventoryId (fq - l.quantity)) dst l.inventoryId with
    | none =>
      simp [transferLeg, hfq, hd] at h
      subst h
      exact ⟨_, _, rfl, by simp [logConsistent], by simp [logConsistent]⟩
    | some tq =>
      simp [transferLeg, hfq, hd] at h
      subst h
      exact ⟨_, _, rfl, by simp [logConsistent], by simp [logConsistent]⟩

theorem transferLeg_preserves_isSome (uid src dst : Nat) (l : TransferLine) (s s' : State)
    (h : transferLeg uid src dst l s = some s') (w i : Nat)
    (hw : (findRow s.balances w i).isSome) : (findRow s'.balances w i).isSome := by
  cases hfq : findRow s.balances src l.inventoryId with
  | none => simp [transferLeg, hfq] at h
  | some fq =>
    cases hd : findRow (setRow s.balances src l.inventoryId (fq - l.quantity)) dst l.inventoryId with
    | none =>
      simp [transferLeg, hfq, hd] at h
      subst h
      simp only [findRow_createRow]
      split
      · simp
      · rw [Option.isSome_iff_exists] at hw ⊢
        obtain ⟨p, hp⟩ := hw
        by_cases hk : w = src ∧ i = l.inventoryId
        · obtain ⟨rfl, rfl⟩ := hk
          exact ⟨_, findRow_setRow_self _ _ _ _ (by simp [hfq])⟩
        · exact ⟨p, by rw [findRow_setRow_ne _ _ _ _ _ _ hk]; exact hp⟩
    | some tq =>
      simp [transferLeg, hfq, hd] at h
      subst h
      simp only [isSome_findRow_setRow]
      exact hw

theorem transferLeg_balance (uid src dst : Nat) (l : TransferLine) (s s' : State)
    (h : transferLeg uid src dst l s = some s') (w i : Nat) :
    getBalance s' w i = getBalance s w i + lineDelta src dst l w i := by
  cases hfq : findRow s.balances src l.inventoryId with
  | none => simp [transferLeg, hfq] at h
  | some fq =>
    cases hd : findRow (setRow s.balances src l.inventoryId (fq - l.quantity)) dst l.inventoryId with
    | some tq =>
      simp [transferLeg, hfq, hd] at h
      subst h
      simp only [getBalance, lineDelta]
      rw [getD_findRow_setRow _ _ _ _ (by simp [hd]) w i,
        getD_findRow_setRow _ _ _ _ (by simp [hfq]) w i]
      by_cases hds : dst = src
      · subst hds
        rw [findRow_setRow_self _ _ _ _ (by simp [hfq])] at hd
        have htq : fq - l.quantity = tq := by simpa using hd
        by_cases hA : w = dst ∧ i = l.inventoryId
        · obtain ⟨rfl, rfl⟩ := hA
          simp [hfq]
          omega
        · simp [hA]
      · have hd' : findRow s.balances dst l.inventoryId = some tq := by
          rw [findRow_setRow_ne _ _ _ _ _ _ (fun hk => hds hk.1)] at hd
          exact hd
        by_cases hA : w = dst ∧ i = l.inventoryId
        · obtain ⟨rfl, rfl⟩ := hA
          simp [hds, hd']
        · by_cases hB : w = src ∧ i = l.inventoryId
          · obtain ⟨rfl, rfl⟩ := hB
            simp [hA, hfq]
            omega
          · simp [hA, hB]
    | none =>
      simp [transferLeg, hfq, hd] at h
      subst h
      have hds : ¬ (dst = src ∧ l.inventoryId = l.inventoryId) := by
        intro hk
        obtain ⟨rfl, -⟩ := hk
        rw [findRow_setRow_self _ _ _ _ (by simp [hfq])] at hd
        exact Option.noConfusion hd
      have hds' : dst ≠ src := fun hk => hds ⟨hk, rfl⟩
      have hd' : findRow s.balances dst l.inventoryId = none := by
        rw [findRow_setRow_ne _ _ _ _ _ _ hds] at hd
        exact hd
      simp only [getBalance, lineDelta, findRow_createRow]
      by_cases hA : w = dst ∧ i = l.inventoryId
      · obtain ⟨rfl, rfl⟩ := hA
        simp [hds', hd']
      · rw [if_neg hA, getD_findRow_setRow _ _ _ _ (by simp [hfq]) w i]
        by_cases hB : w = src ∧ i = l.inventoryId
        · obtain ⟨rfl, rfl⟩ := hB
          simp [hA, hfq]
          omega
        · simp [hA, hB]

/-! Lemmas about the whole approval loop and its re-check. -/

theorem runTransferLines_total (uid src dst : Nat) (ls : List TransferLine) (s : State)
    (h : ∀ l ∈ ls, (findRow s.balances src l.inventoryId).isSome) :
    ∃ s', runTransferLines uid src dst ls s = some s' := by
  induction ls generalizing s with
  | nil => exact ⟨s, rfl⟩
  | cons l ls ih =>
    obtain ⟨s1, hs1⟩ := transferLeg_total uid src dst l s (h l (by simp))
    obtain ⟨s', hs'⟩ := ih s1 (fun x hx =>
      transferLeg_preserves_isSome uid src dst l s s1 hs1 _ _ (h x (by simp [hx])))
    exact ⟨s', by simp [runTransferLines, hs1, hs']⟩

theorem runTransferLines_frame (uid src dst : Nat) (ls : List TransferLine) (s s' : State)
    (h : runTransferLines uid src dst ls s = some s') :
    s'.transfers = s.transfers ∧ s'.sales = s.sales ∧
      s'.inventories = s.inventories ∧ s'.warehouses = s.warehouses := by
  induction ls generalizing s with
  | nil =>
    simp [runTransferLines] at h
    subst h; exact ⟨rfl, rfl, rfl, rfl⟩
  | cons l ls ih =>
    simp only [runTransferLines] at h
    cases hleg : transferLeg uid src dst l s with
    | none => rw [hleg] at h; exact Option.noConfusion h
    | some s1 =>
      rw [hleg] at h
      obtain ⟨h1, h2, h3, h4⟩ := ih s1 h
      obtain ⟨g1, g2, g3, g4⟩ := transferLeg_frame uid src dst l s s1 hleg
      exact ⟨h1.trans g1, h2.trans g2, h3.trans g3, h4.trans g4⟩

theorem runTransferLines_balance (uid src dst : Nat) (ls : List TransferLine) (s s' : State)
    (h : runTransferLines uid src dst ls s = some s') (w i : Nat) :
    getBalance s' w i = getBalance s w i + transferDelta src dst ls w i := by
  induction ls generalizing s with
  | nil =>
    simp [runTransferLines] at h
    subst h; simp [transferDelta]
  | cons l ls ih =>
    simp only [runTransferLines] at h
    cases hleg : transferLeg uid src dst l s with
    | none => rw [hleg] at h; exact Option.noConfusion h
    | some s1 =>
      rw [hleg] at h
      have h1 := ih s1 h
      have h2 := transferLeg_balance uid src dst l s s1 hleg w i
      simp only [transferDelta, List.map_cons, List.sum_cons] at *
      omega

theorem runTransferLines_log (uid src dst : Nat) (ls : List TransferLine) (s s' : State)
    (h : runTransferLines uid src dst ls s = some s') :
    ∃ es : List LogEntry, s'.log = s.log ++ es ∧ es.length = 2 * ls.length ∧
      ∀ e ∈ es, logConsistent e = true := by
  induction ls generalizing s with
  | nil =>
    simp [runTransferLines] at h
    subst h; exact ⟨[], by simp⟩
  | cons l ls ih =>
    simp only [runTransferLines] at h
    cases hleg : transferLeg uid src dst l s with
    | none => rw [hleg] at h; exact Option.noConfusion h
    | some s1 =>
      rw [hleg] at h
      obtain ⟨es, hes, hlen, hcons⟩ := ih s1 h
      obtain ⟨e1, e2, hlog, hc1, hc2⟩ := transferLeg_log uid src dst l s s1 hleg
      refine ⟨[e1, e2] ++ es, ?_, ?_, ?_⟩
      · rw [hes, hlog]; simp
      · simp [hlen]; omega
      · intro e he
        simp at he
        rcases he with rfl | rfl | he
        · exact hc1
        · exact hc2
        · exact hcons e he

theorem recheckLines_none_iff (b : Balances) (src : Nat) (ls : List TransferLine) :
    recheckLines b src ls = none ↔ ∀ l ∈ ls, lineShort b src l = false := by
  induction ls with
  | nil => simp [recheckLines]
  | cons l ls ih =>
    cases hf : findRow b src l.inventoryId with
    | none => simp [recheckLines, hf, lineShort]
    | some q =>
      by_cases hq : q < l.quantity
      · simp [recheckLines, hf, hq, lineShort]
      · simp [recheckLines, hf, hq, lineShort, ih]

theorem recheckLines_some_spec (b : Balances) (src : Nat) (ls : List TransferLine) (a : Int)
    (h : recheckLines b src ls = some a) :
    ∃ l ∈ ls, lineShort b src l = true ∧ a = (findRow b src l.inventoryId).getD 0 := by
  induction ls with
  | nil => simp [recheckLines] at h
  | cons l ls ih =>
    cases hf : findRow b src l.inventoryId with
    | none =>
      simp [recheckLines, hf] at h
      exact ⟨l, by simp, by simp [lineShort, hf], by simp [hf, h]⟩
    | some q =>
      by_cases hq : q < l.quantity
      · simp [recheckLines, hf, hq] at h
        exact ⟨l, by simp, by simp [lineShort, hf, hq], by simp [hf, h]⟩
      · simp only [recheckLines, hf, if_neg hq] at h
        obtain ⟨x, hx, hshort, ha⟩ := ih h
        exact ⟨x, by simp [hx], hshort, ha⟩

theorem lineShort_false_isSome (b : Balances) (src : Nat) (l : TransferLine)
    (h : lineShort b src l = false) : (findRow b src l.inventoryId).isSome := by
  cases hf : findRow b src l.inventoryId with
  | none => simp [lineShort, hf] at h
  | some q => simp

/-! Lemmas about request and sale lookup/update, and approval success. -/

theorem findTransfer_updateTransfer_self (ts : List TransferRequest) (rid : Nat)
    (f : TransferRequest → TransferRequest) (hf : ∀ t, (f t).id = t.id) :
    findTransfer (updateTransfer ts rid f) rid = (findTransfer ts rid).map f := by
  induction ts with
  | nil => simp [findTransfer, updateTransfer]
  | cons t ts ih =>
    by_cases ht : t.id = rid
    · simp [findTransfer, updateTransfer, ht, hf]
    · simp [findTransfer, updateTransfer, ht, ih]

theorem findTransfer_updateTransfer_ne (ts : List TransferRequest) (rid rid' : Nat)
    (f : TransferRequest → TransferRequest) (hf : ∀ t, (f t).id = t.id) (h : rid' ≠ rid) :
    findTransfer (updateTransfer ts rid f) rid' = findTransfer ts rid' := by
  induction ts with
  | nil => simp [updateTransfer]
  | cons t ts ih =>
    by_cases ht : t.id = rid
    · have : (f t).id ≠ rid' := by rw [hf, ht]; exact fun hx => h hx.symm
      simp [findTransfer, updateTransfer, ht, this, Ne.symm h, ih]
    · simp [findTransfer, updateTransfer, ht, ih]

theorem findSale_updateSale_self (xs : List Sale) (sid : Nat)
    (f : Sale → Sale) (hf : ∀ x, (f x).id = x.id) :
    findSale (updateSale xs sid f) sid = (findSale xs sid).map f := by
  induction xs with
  | nil => simp [findSale, updateSale]
  | cons x xs ih =>
    by_cases hx : x.id = sid
    · simp [findSale, updateSale, hx, hf]
    · simp [findSale, updateSale, hx, ih]

theorem approve_ok_spec (adminId now rid : Nat) (s : State) (r : TransferRequest)
    (hr : findTransfer s.transfers rid = some r) (hp : r.status = .PENDING)
    (hok : ∀ l ∈ r.items, lineShort s.balances r.fromWarehouseId l = false) :
    ∃ s', approveTransferRequest adminId now rid s = .ok s' ∧
      findTransfer s'.transfers rid = some { r with
        status := .COMPLETED, approvedById := some adminId, approvedAt := some now } ∧
      (∀ rid', rid' ≠ rid → findTransfer s'.transfers rid' = findTransfer s.transfers rid') ∧
      s'.sales = s.sales ∧ s'.inventories = s.inventories ∧ s'.warehouses = s.warehouses ∧
      (∀ w i, getBalance s' w i
        = getBalance s w i + transferDelta r.fromWarehouseId r.toWarehouseId r.items w i) ∧
      ∃ es : List LogEntry, s'.log = s.log ++ es ∧ es.length = 2 * r.items.length ∧
        ∀ e ∈ es, logConsistent e = true := by
  have hnone : recheckLines s.balances r.fromWarehouseId r.items = none :=
    (recheckLines_none_iff _ _ _).mpr hok
  obtain ⟨s1, hs1⟩ := runTransferLines_total adminId r.fromWarehouseId r.toWarehouseId r.items
    { s with transfers := updateTransfer s.transfers rid (fun t =>
        { t with status := .APPROVED, approvedById := some adminId, approvedAt := some now }) }
    (fun l hl => lineShort_false_isSome _ _ _ (hok l hl))
  obtain ⟨hft, hfs, hfi, hfw⟩ := runTransferLines_frame _ _ _ _ _ _ hs1
  refine ⟨{ s1 with
      transfers := updateTransfer s1.transfers rid (fun t => { t with status := .COMPLETED }) },
    ?_, ?_, ?_, ?_, ?_, ?_, ?_, ?_⟩
  · simp [approveTransferRequest, hr, hp, hnone, hs1]
  · rw [hft]
    rw [findTransfer_updateTransfer_self
        (updateTransfer s.transfers rid (fun t =>
          { t with status := .APPROVED, approvedById := some adminId, approvedAt := some now }))
        rid (fun t => { t with status := TRStatus.COMPLETED }) (fun t => rfl),
      findTransfer_updateTransfer_self s.transfers rid (fun t =>
          { t with status := .APPROVED, approvedById := some adminId, approvedAt := some now })
        (fun t => rfl), hr]
    rfl
  · intro rid' hne
    rw [findTransfer_updateTransfer_ne s1.transfers rid rid'
        (fun t => { t with status := TRStatus.COMPLETED }) (fun t => rfl) hne, hft]
    rw [findTransfer_updateTransfer_ne s.transfers rid rid'
        (fun t => { t with status := .APPROVED, approvedById := some adminId, approvedAt := some now })
        (fun t => rfl) hne]
  · exact hfs
  · exact hfi
  · exact hfw
  · intro w i
    have := runTransferLines_balance _ _ _ _ _ _ hs1 w i
    simpa [getBalance] using this
  · obtain ⟨es, hes, hlen, hcons⟩ := runTransferLines_log _ _ _ _ _ _ hs1
    exact ⟨es, hes, hlen, hcons⟩

/-! Lemmas about the sale transaction loop and its pre-check. -/

theorem saleLeg_total (uid w : Nat) (it : SaleItem) (s : State)
    (h : (findRow s.balances w it.inventoryId).isSome) :
    ∃ s', saleLeg uid w it s = some s' := by
  obtain ⟨q, hq⟩ := Option.isSome_iff_exists.mp h
  cases hx : saleLeg uid w it s with
  | some s' => exact ⟨s', rfl⟩
  | none => exact absurd hx (by simp [saleLeg, hq])

theorem saleLeg_spec (uid w : Nat) (it : SaleItem) (s s' : State)
    (h : saleLeg uid w it s = some s') :
    s'.transfers = s.transfers ∧ s'.sales = s.sales ∧
      s'.inventories = s.inventories ∧ s'.warehouses = s.warehouses ∧
      (∀ w' i', (findRow s'.balances w' i').isSome = (findRow s.balances w' i').isSome) ∧
      ∃ e : LogEntry, s'.log = s.log ++ [e] ∧ logConsistent e = true := by
  cases hq : findRow s.balances w it.inventoryId with
  | none => simp [saleLeg, hq] at h
  | some q =>
    simp [saleLeg, hq] at h
    subst h
    refine ⟨rfl, rfl, rfl, rfl, ?_, _, rfl, by simp [logConsistent]⟩
    intro w' i'
    exact isSome_findRow_setRow _ _ _ _ _ _

theorem runSaleLines_total (uid w : Nat) (its : List SaleItem) (s : State)
    (h : ∀ it ∈ its, (findRow s.balances w it.inventoryId).isSome) :
    ∃ s', runSaleLines uid w its s = some s' := by
  induction its generalizing s with
  | nil => exact ⟨s, rfl⟩
  | cons it its ih =>
    obtain ⟨s1, hs1⟩ := saleLeg_total uid w it s (h it (by simp))
    obtain ⟨-, -, -, -, hdom, -⟩ := saleLeg_spec uid w it s s1 hs1
    obtain ⟨s', hs'⟩ := ih s1 (fun x hx => by rw [hdom]; exact h x (by simp [hx]))
    exact ⟨s', by simp [runSaleLines, hs1, hs']⟩

theorem runSaleLines_spec (uid w : Nat) (its : List SaleItem) (s s' : State)
    (h : runSaleLines uid w its s = some s') :
    s'.transfers = s.transfers ∧ s'.sales = s.sales ∧
      s'.inventories = s.inventories ∧ s'.warehouses = s.warehouses ∧
      ∃ es : List LogEntry, s'.log = s.log ++ es ∧ es.length = its.length ∧
        ∀ e ∈ es, logConsistent e = true := by
  induction its generalizing s with
  | nil =>
    simp [runSaleLines] at h
    subst h
    exact ⟨rfl, rfl, rfl, rfl, [], by simp⟩
  | cons it its ih =>
    simp only [runSaleLines] at h
    cases hleg : saleLeg uid w it s with
    | none => rw [hleg] at h; exact Option.noConfusion h
    | some s1 =>
      rw [hleg] at h
      obtain ⟨h1, h2, h3, h4, hes⟩ := ih s1 h
      obtain ⟨g1, g2, g3, g4, -, e, hlog, hce⟩ := saleLeg_spec uid w it s s1 hleg
      obtain ⟨es, hes1, hlen, hcons⟩ := hes
      refine ⟨h1.trans g1, h2.trans g2, h3.trans g3, h4.trans g4, e :: es, ?_, by simp [hlen], ?_⟩
      · rw [hes1, hlog]; simp
      · intro x hx
        rcases List.mem_cons.mp hx with rfl | hx
        · exact hce
        · exact hcons x hx

theorem saleCheck_none_iff (b : Balances) (w : Nat) (its : List SaleItem) :
    saleCheck b w its = none ↔ ∀ it ∈ its, saleLineShort b w it = false := by
  induction its with
  | nil => simp [saleCheck]
  | cons it its ih =>
    cases hf : findRow b w it.inventoryId with
    | none => simp [saleCheck, hf, saleLineShort]
    | some q =>
      by_cases hq : q < it.quantity
      · simp [saleCheck, hf, hq, saleLineShort]
      · simp [saleCheck, hf, hq, saleLineShort, ih]

theorem saleLineShort_false_isSome (b : Balances) (w : Nat) (it : SaleItem)
    (h : saleLineShort b w it = false) : (findRow b w it.inventoryId).isSome := by
  cases hf : findRow b w it.inventoryId with
  | none => simp [saleLineShort, hf] at h
  | some q => simp

theorem createSale_ok_spec (uid : Nat) (role : Role) (uw : Option Nat)
    (saleId w : Nat) (items : List SaleItem) (s : State)
    (hne : items ≠ []) (hrole : ¬ (role = .STAFF ∧ uw ≠ some w)) (hw : w ∈ s.warehouses)
    (hok : ∀ it ∈ items, saleLineShort s.balances w it = false) :
    ∃ s', createSale uid role uw saleId w items s = .ok s' ∧
      s'.transfers = s.transfers ∧
      s'.sales = Sale.mk saleId w .COMPLETED items :: s.sales ∧
      ∃ es : List LogEntry, s'.log = s.log ++ es ∧ es.length = items.length ∧
        ∀ e ∈ es, logConsistent e = true := by
  have hchk : saleCheck s.balances w items = none := (saleCheck_none_iff _ _ _).mpr hok
  obtain ⟨s1, hs1⟩ := runSaleLines_total uid w items
    { s with sales := ⟨saleId, w, .COMPLETED, items⟩ :: s.sales }
    (fun it hit => saleLineShort_false_isSome _ _ _ (hok it hit))
  obtain ⟨ht, hsl, -, -, es, hlog, hlen, hcons⟩ := runSaleLines_spec _ _ _ _ _ hs1
  refine ⟨s1, ?_, ht, hsl, es, hlog, hlen, hcons⟩
  simp [createSale, hne, hrole, hw, hchk, hs1]

/-! Lemmas about the sale-cancellation restore loop. -/

theorem restoreLine_domain (uid w : Nat) (it : SaleItem) (s : State) (w' i' : Nat) :
    (findRow (restoreLine uid w it s).balances w' i').isSome
      = (findRow s.balances w' i').isSome := by
  cases hq : findRow s.balances w it.inventoryId with
  | none => simp [restoreLine, hq]
  | some q => simp [restoreLine, hq, isSome_findRow_setRow]

theorem restoreLine_frame (uid w : Nat) (it : SaleItem) (s : State) :
    (restoreLine uid w it s).transfers = s.transfers ∧
      (restoreLine uid w it s).sales = s.sales ∧
      (restoreLine uid w it s).inventories = s.inventories ∧
      (restoreLine uid w it s).warehouses = s.warehouses := by
  cases hq : findRow s.balances w it.inventoryId with
  | none => simp [restoreLine, hq]
  | some q => simp [restoreLine, hq]

theorem restoreLine_log (uid w : Nat) (it : SaleItem) (s : State) :
    ∃ es : List LogEntry, (restoreLine uid w it s).log = s.log ++ es ∧
      es.length = (if (findRow s.balances w it.inventoryId).isSome then 1 else 0) ∧
      ∀ e ∈ es, logConsistent e = true := by
  cases hq : findRow s.balances w it.inventoryId with
  | none => exact ⟨[], by simp [restoreLine, hq]⟩
  | some q =>
    refine ⟨[⟨it.inventoryId, w, .ADJUSTMENT, it.quantity, q, q + it.quantity, uid⟩], ?_, ?_, ?_⟩
    · simp [restoreLine, hq]
    · simp [hq]
    · intro e he
      simp at he
      subst he
      simp [logConsistent]

theorem restoredCount_congr (b b' : Balances) (w : Nat) (its : List SaleItem)
    (h : ∀ it ∈ its, (findRow b' w it.inventoryId).isSome = (findRow b w it.inventoryId).isSome) :
    restoredCount b' w its = restoredCount b w its := by
  induction its with
  | nil => rfl
  | cons it its ih =>
    simp only [restoredCount, h it (by simp)]
    rw [ih (fun x hx => h x (by simp [hx]))]

theorem restoreFold_spec (uid w : Nat) (its : List SaleItem) :
    ∀ s : State,
      (its.foldl (fun st it => restoreLine uid w it st) s).transfers = s.transfers ∧
      (its.foldl (fun st it => restoreLine uid w it st) s).sales = s.sales ∧
      ∃ es : List LogEntry,
        (its.foldl (fun st it => restoreLine uid w it st) s).log = s.log ++ es ∧
        es.length = restoredCount s.balances w its ∧
        ∀ e ∈ es, logConsistent e = true := by
  induction its with
  | nil => exact fun s => ⟨rfl, rfl, [], by simp [restoredCount]⟩
  | cons it its ih =>
    intro s
    obtain ⟨ht, hs, es, hlog, hlen, hcons⟩ := ih (restoreLine uid w it s)
    obtain ⟨gt, gs, -, -⟩ := restoreLine_frame uid w it s
    obtain ⟨e0, hlog0, hlen0, hcons0⟩ := restoreLine_log uid w it s
    refine ⟨by simp [List.foldl_cons, ht, gt], by simp [List.foldl_cons, hs, gs],
      e0 ++ es, ?_, ?_, ?_⟩
    · simp only [List.foldl_cons]
      rw [hlog, hlog0, List.append_assoc]
    · rw [List.length_append, hlen0, hlen,
        restoredCount_congr s.balances (restoreLine uid w it s).balances w its
          (fun x _ => restoreLine_domain uid w it s w x.inventoryId)]
      simp [restoredCount]
    · intro e he
      rcases List.mem_append.mp he with he | he
      · exact hcons0 e he
      · exact hcons e he

theorem cancelSale_ok_spec (uid : Nat) (role : Role) (saleId : Nat) (s : State) (sale : Sale)
    (hrole : role ≠ .STAFF) (hs : findSale s.sales saleId = some sale)
    (hc : sale.status ≠ .CANCELLED) :
    ∃ s', cancelSale uid role saleId s = .ok s' ∧
      s'.transfers = s.transfers ∧
      findSale s'.sales saleId = some { sale with status := .CANCELLED } ∧
      ∃ es : List LogEntry, s'.log = s.log ++ es ∧
        es.length = restoredCount s.balances sale.warehouseId sale.items ∧
        ∀ e ∈ es, logConsistent e = true := by
  obtain ⟨ht, hsl, es, hlog, hlen, hcons⟩ :=
    restoreFold_spec uid sale.warehouseId sale.items
      { s with sales := updateSale s.sales saleId (fun x => { x with status := .CANCELLED }) }
  refine ⟨_, by simp [cancelSale, hrole, hs, hc], ht, ?_, es, hlog, hlen, hcons⟩
  rw [hsl]
  show findSale (updateSale s.sales saleId _) saleId = _
  rw [findSale_updateSale_self s.sales saleId
    (fun x => { x with status := SaleStatus.CANCELLED }) (fun x => rfl), hs]
  rfl

/-! Success- and failure-shape lemmas for each operation. -/

theorem commit_eq_of_error (r : Except Err State) (s : State) (e : Err)
    (h : r = .error e) : commit r s = s := by
  rw [h]; rfl

theorem assign_ok_log (uid i w : Nat) (q : Int) (s s' : State)
    (h : assignInventoryToWarehouse uid i w q s = .ok s') :
    ∃ e : LogEntry, s'.log = s.log ++ [e] ∧ logConsistent e = true := by
  by_cases h0 : q < 0
  · simp [assignInventoryToWarehouse, h0] at h
  · by_cases h1 : i ∈ s.inventories
    · by_cases h2 : w ∈ s.warehouses
      · cases hf : findRow s.balances w i with
        | some p =>
          simp [assignInventoryToWarehouse, h0, h1, h2, hf] at h
          subst h
          exact ⟨_, rfl, by simp [logConsistent]⟩
        | none =>
          simp [assignInventoryToWarehouse, h0, h1, h2, hf] at h
          subst h
          exact ⟨_, rfl, by simp [logConsistent]⟩
      · simp [assignInventoryToWarehouse, h0, h1, h2] at h
    · simp [assignInventoryToWarehouse, h0, h1] at h

theorem adjust_ok_log (uid w i : Nat) (q : Int) (s s' : State)
    (h : adjustInventoryQuantity uid w i q s = .ok s') :
    ∃ e : LogEntry, s'.log = s.log ++ [e] ∧ logConsistent e = true := by
  cases hf : findRow s.balances w i with
  | none => simp [adjustInventoryQuantity, hf] at h
  | some p =>
    by_cases hneg : p + q < 0
    · simp [adjustInventoryQuantity, hf, hneg] at h
    · simp [adjustInventoryQuantity, hf, hneg] at h
      subst h
      refine ⟨_, rfl, ?_⟩
      simp only [logConsistent]
      rcases abs_cases q with ⟨ha, -⟩ | ⟨ha, -⟩
      · simp [ha]
      · simp [ha]

theorem createSale_ok_log (uid : Nat) (role : Role) (uw : Option Nat)
    (saleId w : Nat) (items : List SaleItem) (s s' : State)
    (h : createSale uid role uw saleId w items s = .ok s') :
    ∃ es : List LogEntry, s'.log = s.log ++ es ∧ es.length = items.length ∧
      ∀ e ∈ es, logConsistent e = true := by
  by_cases h0 : items = []
  · simp [createSale, h0] at h
  · by_cases h1 : role = .STAFF ∧ uw ≠ some w
    · simp [createSale, h0, h1] at h
    · by_cases h2 : w ∈ s.warehouses
      · cases hchk : saleCheck s.balances w items with
        | some e => simp [createSale, h0, h1, h2, hchk] at h
        | none =>
          cases hrun : runSaleLines uid w items
              { s with sales := ⟨saleId, w, .COMPLETED, items⟩ :: s.sales } with
          | none => simp [createSale, h0, h1, h2, hchk, hrun] at h
          | some s1 =>
            simp [createSale, h0, h1, h2, hchk, hrun] at h
            subst h
            obtain ⟨-, -, -, -, es, hlog, hlen, hcons⟩ := runSaleLines_spec _ _ _ _ _ hrun
            exact ⟨es, hlog, hlen, hcons⟩
      · simp [createSale, h0, h1, h2] at h

theorem createSale_short_fails (uid : Nat) (role : Role) (uw : Option Nat)
    (saleId w : Nat) (items : List SaleItem) (s : State)
    (hshort : ∃ it ∈ items, saleLineShort s.balances w it = true) :
    ∃ e : Err, createSale uid role uw saleId w items s = .error e := by
  by_cases h0 : items = []
  · exact ⟨.emptyItems, by simp [createSale, h0]⟩
  · by_cases h1 : role = .STAFF ∧ uw ≠ some w
    · exact ⟨.forbidden, by simp [createSale, h0, h1]⟩
    · by_cases h2 : w ∈ s.warehouses
      · cases hchk : saleCheck s.balances w items with
        | none =>
          exfalso
          obtain ⟨it, hit, hbad⟩ := hshort
          rw [(saleCheck_none_iff _ _ _).mp hchk it hit] at hbad
          exact Bool.noConfusion hbad
        | some e => exact ⟨e, by simp [createSale, h0, h1, h2, hchk]⟩
      · exact ⟨.notFound, by simp [createSale, h0, h1, h2]⟩

theorem approve_short_spec (adminId now rid : Nat) (s : State) (r : TransferRequest)
    (hr : findTransfer s.transfers rid = some r) (hp : r.status = .PENDING)
    (hshort : ∃ l ∈ r.items, lineShort s.balances r.fromWarehouseId l = true) :
    ∃ a : Int, approveTransferRequest adminId now rid s = .error (.insufficientStock a) ∧
      ∃ l ∈ r.items, lineShort s.balances r.fromWarehouseId l = true ∧
        a = (findRow s.balances r.fromWarehouseId l.inventoryId).getD 0 := by
  cases hchk : recheckLines s.balances r.fromWarehouseId r.items with
  | none =>
    exfalso
    obtain ⟨l, hl, hbad⟩ := hshort
    rw [(recheckLines_none_iff _ _ _).mp hchk l hl] at hbad
    exact Bool.noConfusion hbad
  | some a =>
    refine ⟨a, by simp [approveTransferRequest, hr, hp, hchk], ?_⟩
    exact recheckLines_some_spec _ _ _ _ hchk

theorem approve_ok_balance (adminId now rid : Nat) (s s' : State) (r : TransferRequest)
    (hr : findTransfer s.transfers rid = some r)
    (hok : approveTransferRequest adminId now rid s = .ok s') (w i : Nat) :
    getBalance s' w i
      = getBalance s w i + transferDelta r.fromWarehouseId r.toWarehouseId r.items w i := by
  by_cases hp : r.status = .PENDING
  · cases hchk : recheckLines s.balances r.fromWarehouseId r.items with
    | some a => simp [approveTransferRequest, hr, hp, hchk] at hok
    | none =>
      cases hrun : runTransferLines adminId r.fromWarehouseId r.toWarehouseId r.items
          { s with transfers := updateTransfer s.transfers rid (fun t =>
              { t with status := .APPROVED, approvedById := some adminId, approvedAt := some now }) } with
      | none => simp [approveTransferRequest, hr, hp, hchk, hrun] at hok
      | some s1 =>
        simp [approveTransferRequest, hr, hp, hchk, hrun] at hok
        subst hok
        have hb := runTransferLines_balance _ _ _ _ _ _ hrun w i
        simpa [getBalance] using hb
  · simp [approveTransferRequest, hr, hp] at hok

theorem approve_ok_log (adminId now rid : Nat) (s s' : State) (r : TransferRequest)
    (hr : findTransfer s.transfers rid = some r)
    (hok : approveTransferRequest adminId now rid s = .ok s') :
    ∃ es : List LogEntry, s'.log = s.log ++ es ∧ es.length = 2 * r.items.length ∧
      ∀ e ∈ es, logConsistent e = true := by
  by_cases hp : r.status = .PENDING
  · cases hchk : recheckLines s.balances r.fromWarehouseId r.items with
    | some a => simp [approveTransferRequest, hr, hp, hchk] at hok
    | none =>
      cases hrun : runTransferLines adminId r.fromWarehouseId r.toWarehouseId r.items
          { s with transfers := updateTransfer s.transfers rid (fun t =>
              { t with status := .APPROVED, approvedById := some adminId, approvedAt := some now }) } with
      | none => simp [approveTransferRequest, hr, hp, hchk, hrun] at hok
      | some s1 =>
        simp [approveTransferRequest, hr, hp, hchk, hrun] at hok
        subst hok
        obtain ⟨es, hes, hlen, hcons⟩ := runTransferLines_log _ _ _ _ _ _ hrun
        exact ⟨es, hes, hlen, hcons⟩
  · simp [approveTransferRequest, hr, hp] at hok

theorem cancelSale_ok_log (uid : Nat) (role : Role) (saleId : Nat) (s s' : State) (sale : Sale)
    (hs : findSale s.sales saleId = some sale)
    (hok : cancelSale uid role saleId s = .ok s') :
    ∃ es : List LogEntry, s'.log = s.log ++ es ∧
      es.length = restoredCount s.balances sale.warehouseId sale.items ∧
      ∀ e ∈ es, logConsistent e = true := by
  by_cases hrole : role = .STAFF
  · simp [cancelSale, hrole] at hok
  · by_cases hc : sale.status = .CANCELLED
    · simp [cancelSale, hrole, hs, hc] at hok
    · simp [cancelSale, hrole, hs, hc] at hok
      subst hok
      obtain ⟨-, -, es, hlog, hlen, hcons⟩ :=
        restoreFold_spec uid sale.warehouseId sale.items
          { s with sales := updateSale s.sales saleId (fun x => { x with status := .CANCELLED }) }
      exact ⟨es, hlog, hlen, hcons⟩

theorem transferDelta_conservation (src dst : Nat) (ls : List TransferLine) (i : Nat) :
    transferDelta src dst ls src i + transferDelta src dst ls dst i = 0 := by
  induction ls with
  | nil => simp [transferDelta]
  | cons l ls ih =>
    simp only [transferDelta, List.map_cons, List.sum_cons] at *
    have hl : lineDelta src dst l src i + lineDelta src dst l dst i = 0 := by
      simp only [lineDelta]
      by_cases hi : i = l.inventoryId
      · by_cases hsd : src = dst <;> (simp [hi, hsd]; try omega)
      · simp [hi]
    omega

/-! Claim theorems. -/

/-- C1: the claim that every committed mutation keeps every (warehouse, item)
balance non-negative fails on the code.  A sale whose line list names the same
item twice passes the per-line stock pre-check (each line is compared to the
same pre-transaction balance) and then commits both debits, leaving warehouse
1's balance of item 1 at −4 after a committed assign-then-sell sequence. -/
theorem c1_nonnegativity_failing_input :
    assignInventoryToWarehouse 9 1 1 10 initState = .ok s_assigned ∧
    createSale 9 .ADMIN none 1 1 dupSaleItems s_assigned = .ok s_sold ∧
    getBalance s_sold 1 1 = -4 := by decide

/-- C2: conservation under transfer — for every transfer request whose
approval succeeds (which is exactly when it reaches COMPLETED), and for every
line item of the request, the source balance plus the destination balance of
that item is the same after the approval as before it. -/
theorem c2_transfer_conservation (s s' : State) (rid adminId now : Nat) (r : TransferRequest)
    (hr : findTransfer s.transfers rid = some r)
    (hok : approveTransferRequest adminId now rid s = .ok s') :
    ∀ l ∈ r.items,
      getBalance s' r.fromWarehouseId l.inventoryId
          + getBalance s' r.toWarehouseId l.inventoryId
        = getBalance s r.fromWarehouseId l.inventoryId
          + getBalance s r.toWarehouseId l.inventoryId := by
  intro l hl
  have h1 := approve_ok_balance adminId now rid s s' r hr hok r.fromWarehouseId l.inventoryId
  have h2 := approve_ok_balance adminId now rid s s' r hr hok r.toWarehouseId l.inventoryId
  have h3 := transferDelta_conservation r.fromWarehouseId r.toWarehouseId r.items l.inventoryId
  omega

/-- C2 witness: approving the concrete pending request `wTransfer` on
`wState` conserves the total of item 1 across warehouses 1 and 2. -/
theorem c2_transfer_conservation_witness :
    getBalance wApproved 1 1 + getBalance wApproved 2 1
      = getBalance wState 1 1 + getBalance wState 2 1 :=
  c2_transfer_conservation wState wApproved 1 7 100 wTransfer (by decide) (by decide)
    ⟨1, 3⟩ (by decide)

/-- C3: approving a PENDING request every line of which passes the balance
re-check succeeds in one atomic step: the returned state (the only observable
one — the transaction is a single state transformer, so no intermediate
status is observable) has the request COMPLETED with approver and approval
time set, and every balance changed by exactly the summed signed line deltas
(−quantity at the source, +quantity at the destination, in array order). -/
theorem c3_approval_executes (s : State) (rid adminId now : Nat) (r : TransferRequest)
    (hr : findTransfer s.transfers rid = some r) (hp : r.status = .PENDING)
    (hok : ∀ l ∈ r.items, lineShort s.balances r.fromWarehouseId l = false) :
    ∃ s', approveTransferRequest adminId now rid s = .ok s' ∧
      findTransfer s'.transfers rid = some { r with
        status := .COMPLETED, approvedById := some adminId, approvedAt := some now } ∧
      ∀ w i, getBalance s' w i
        = getBalance s w i + transferDelta r.fromWarehouseId r.toWarehouseId r.items w i := by
  obtain ⟨s', h1, h2, -, -, -, -, h7, -⟩ := approve_ok_spec adminId now rid s r hr hp hok
  exact ⟨s', h1, h2, h7⟩

/-- C3 witness: the concrete pending request `wTransfer` on `wState` passes
the re-check and its approval completes with the stated effects. -/
theorem c3_approval_executes_witness :
    ∃ s', approveTransferRequest 7 100 1 wState = .ok s' ∧
      findTransfer s'.transfers 1 = some { wTransfer with
        status := .COMPLETED, approvedById := some 7, approvedAt := some 100 } ∧
      ∀ w i, getBalance s' w i
        = getBalance wState w i
            + transferDelta wTransfer.fromWarehouseId wTransfer.toWarehouseId wTransfer.items w i :=
  c3_approval_executes wState 1 7 100 wTransfer (by decide) (by decide) (by decide)

/-- C4: all-or-nothing for multi-line operations — every sale line is checked
against the pre-transaction balance before any delta is committed, so if any
line of a sale is short (row absent or below the requested quantity), the
sale fails and the committed state is exactly the pre-state: no StockBalance
row changed and no log entry written; the same holds for the approval of a
pending transfer request with a short line. -/
theorem c4_all_or_nothing (uid : Nat) (role : Role) (uw : Option Nat) (saleId w : Nat)
    (items : List SaleItem) (s : State)
    (adminId now rid : Nat) (s2 : State) (r : TransferRequest)
    (hsale : ∃ it ∈ items, saleLineShort s.balances w it = true)
    (hr : findTransfer s2.transfers rid = some r) (hp : r.status = .PENDING)
    (htr : ∃ l ∈ r.items, lineShort s2.balances r.fromWarehouseId l = true) :
    (∃ e, createSale uid role uw saleId w items s = .error e) ∧
    commit (createSale uid role uw saleId w items s) s = s ∧
    (∃ e, approveTransferRequest adminId now rid s2 = .error e) ∧
    commit (approveTransferRequest adminId now rid s2) s2 = s2 := by
  obtain ⟨e1, he1⟩ := createSale_short_fails uid role uw saleId w items s hsale
  obtain ⟨a, ha, -⟩ := approve_short_spec adminId now rid s2 r hr hp htr
  exact ⟨⟨e1, he1⟩, commit_eq_of_error _ _ _ he1, ⟨_, ha⟩, commit_eq_of_error _ _ _ ha⟩

/-- C4 witness: a sale of 9 units against 5 on hand fails and commits
nothing, and approving `wTransfer` against 2 units on hand fails and commits
nothing. -/
theorem c4_all_or_nothing_witness :
    (∃ e, createSale 9 .ADMIN none 1 1 [⟨1, 9⟩] c8State = .error e) ∧
    commit (createSale 9 .ADMIN none 1 1 [⟨1, 9⟩] c8State) c8State = c8State ∧
    (∃ e, approveTransferRequest 7 100 1 w5State = .error e) ∧
    commit (approveTransferRequest 7 100 1 w5State) w5State = w5State :=
  c4_all_or_nothing 9 .ADMIN none 1 1 [⟨1, 9⟩] c8State 7 100 1 w5State wTransfer
    (by decide) (by decide) (by decide) (by decide)

/-- C5: approving a PENDING transfer request with a short line fails with an
insufficient-stock error whose reported quantity is the available balance
(`row?.quantity || 0`) of a short line, and the committed state is exactly
the pre-state — so the request is still PENDING and no balance row or log
entry changed. -/
theorem c5_approval_insufficient_stock (s : State) (rid adminId now : Nat) (r : TransferRequest)
    (hr : findTransfer s.transfers rid = some r) (hp : r.status = .PENDING)
    (hshort : ∃ l ∈ r.items, lineShort s.balances r.fromWarehouseId l = true) :
    ∃ a : Int, approveTransferRequest adminId now rid s = .error (.insufficientStock a) ∧
      (∃ l ∈ r.items, lineShort s.balances r.fromWarehouseId l = true ∧
        a = (findRow s.balances r.fromWarehouseId l.inventoryId).getD 0) ∧
      commit (approveTransferRequest adminId now rid s) s = s := by
  obtain ⟨a, ha, hl⟩ := approve_short_spec adminId now rid s r hr hp hshort
  exact ⟨a, ha, hl, commit_eq_of_error _ _ _ ha⟩

/-- C5 witness: approving `wTransfer` (3 units requested) over a store with 2
units on hand fails with the available quantity and changes nothing. -/
theorem c5_approval_insufficient_stock_witness :
    ∃ a : Int, approveTransferRequest 7 100 1 w5State = .error (.insufficientStock a) ∧
      (∃ l ∈ wTransfer.items, lineShort w5State.balances wTransfer.fromWarehouseId l = true ∧
        a = (findRow w5State.balances wTransfer.fromWarehouseId l.inventoryId).getD 0) ∧
      commit (approveTransferRequest 7 100 1 w5State) w5State = w5State :=
  c5_approval_insufficient_stock w5State 1 7 100 wTransfer (by decide) (by decide) (by decide)

/-- C6: log completeness — each committed mutation appends exactly one
movement-log entry per balance-row write (one for assign and adjust, one per
line for a sale, two per line for a transfer, one per existing row for a sale
cancellation), and every appended entry satisfies
`newQty = previousQty ± quantity` consistent with its action kind. -/
theorem c6_log_completeness
    (uidA iA wA : Nat) (qA : Int) (sA sA' : State)
    (uidD wD iD : Nat) (qD : Int) (sD sD' : State)
    (uidS : Nat) (roleS : Role) (uwS : Option Nat) (saleIdS wS : Nat)
    (itemsS : List SaleItem) (sS sS' : State)
    (adminT nowT ridT : Nat) (sT sT' : State) (rT : TransferRequest)
    (uidC : Nat) (roleC : Role) (saleIdC : Nat) (sC sC' : State) (saleC : Sale)
    (ha : assignInventoryToWarehouse uidA iA wA qA sA = .ok sA')
    (hd : adjustInventoryQuantity uidD wD iD qD sD = .ok sD')
    (hs : createSale uidS roleS uwS saleIdS wS itemsS sS = .ok sS')
    (hrT : findTransfer sT.transfers ridT = some rT)
    (hap : approveTransferRequest adminT nowT ridT sT = .ok sT')
    (hsC : findSale sC.sales saleIdC = some saleC)
    (hc : cancelSale uidC roleC saleIdC sC = .ok sC') :
    (∃ e : LogEntry, sA'.log = sA.log ++ [e] ∧ logConsistent e = true) ∧
    (∃ e : LogEntry, sD'.log = sD.log ++ [e] ∧ logConsistent e = true) ∧
    (∃ es : List LogEntry, sS'.log = sS.log ++ es ∧ es.length = itemsS.length ∧
      ∀ e ∈ es, logConsistent e = true) ∧
    (∃ es : List LogEntry, sT'.log = sT.log ++ es ∧ es.length = 2 * rT.items.length ∧
      ∀ e ∈ es, logConsistent e = true) ∧
    (∃ es : List LogEntry, sC'.log = sC.log ++ es ∧
      es.length = restoredCount sC.balances saleC.warehouseId saleC.items ∧
      ∀ e ∈ es, logConsistent e = true) :=
  ⟨assign_ok_log uidA iA wA qA sA sA' ha,
    adjust_ok_log uidD wD iD qD sD sD' hd,
    createSale_ok_log uidS roleS uwS saleIdS wS itemsS sS sS' hs,
    approve_ok_log adminT nowT ridT sT sT' rT hrT hap,
    cancelSale_ok_log uidC roleC saleIdC sC sC' saleC hsC hc⟩

/-- C6 witness: concrete committed instances of all five mutations satisfy
the stated log shapes. -/
theorem c6_log_completeness_witness :
    (∃ e : LogEntry, s_assigned.log = initState.log ++ [e] ∧ logConsistent e = true) ∧
    (∃ e : LogEntry, w6Adjusted.log = c8State.log ++ [e] ∧ logConsistent e = true) ∧
    (∃ es : List LogEntry, w6SoldState.log = c8State.log ++ es ∧ es.length = w6SaleItems.length ∧
      ∀ e ∈ es, logConsistent e = true) ∧
    (∃ es : List LogEntry, wApproved.log = wState.log ++ es ∧ es.length = 2 * wTransfer.items.length ∧
      ∀ e ∈ es, logConsistent e = true) ∧
    (∃ es : List LogEntry, w6Cancelled.log = w6CancelState.log ++ es ∧
      es.length = restoredCount w6CancelState.balances w6CancelSale.warehouseId w6CancelSale.items ∧
      ∀ e ∈ es, logConsistent e = true) :=
  c6_log_completeness 9 1 1 10 initState s_assigned 9 1 1 (-2) c8State w6Adjusted
    9 .ADMIN none 1 1 w6SaleItems c8State w6SoldState
    7 100 1 wState wApproved wTransfer
    9 .ADMIN 1 w6CancelState w6Cancelled w6CancelSale
    (by decide) (by decide) (by decide) (by decide) (by decide) (by decide) (by decide)

/-- C7: state-machine legality — approve, reject and cancel each fail with an
invalid-state error and commit nothing on a transfer request that is not
PENDING, and cancelling an already-CANCELLED sale fails with an invalid-state
error and commits nothing. -/
theorem c7_state_machine_legality
    (s : State) (rid : Nat) (r : TransferRequest) (adminId now uid : Nat)
    (role : Role) (reason : Option String)
    (s2 : State) (sid : Nat) (sl : Sale) (uid2 : Nat) (role2 : Role)
    (hr : findTransfer s.transfers rid = some r) (hnp : r.status ≠ .PENDING)
    (hsl : findSale s2.sales sid = some sl) (hcanc : sl.status = .CANCELLED)
    (hrole2 : role2 ≠ .STAFF) :
    approveTransferRequest adminId now rid s = .error .invalidState ∧
    rejectTransferRequest adminId now rid reason s = .error .invalidState ∧
    cancelTransferRequest uid role rid s = .error .invalidState ∧
    cancelSale uid2 role2 sid s2 = .error .invalidState ∧
    commit (approveTransferRequest adminId now rid s) s = s ∧
    commit (rejectTransferRequest adminId now rid reason s) s = s ∧
    commit (cancelTransferRequest uid role rid s) s = s ∧
    commit (cancelSale uid2 role2 sid s2) s2 = s2 := by
  have h1 : approveTransferRequest adminId now rid s = .error .invalidState := by
    simp [approveTransferRequest, hr, hnp]
  have h2 : rejectTransferRequest adminId now rid reason s = .error .invalidState := by
    simp [rejectTransferRequest, hr, hnp]
  have h3 : cancelTransferRequest uid role rid s = .error .invalidState := by
    simp [cancelTransferRequest, hr, hnp]
  have h4 : cancelSale uid2 role2 sid s2 = .error .invalidState := by
    simp [cancelSale, hrole2, hsl, hcanc]
  exact ⟨h1, h2, h3, h4, commit_eq_of_error _ _ _ h1, commit_eq_of_error _ _ _ h2,
    commit_eq_of_error _ _ _ h3, commit_eq_of_error _ _ _ h4⟩

/-- C7 witness: the COMPLETED request `w7Transfer` rejects all three
transitions and the CANCELLED sale `w7Sale` rejects cancellation, all with no
committed change. -/
theorem c7_state_machine_legality_witness :
    approveTransferRequest 7 100 1 w7State = .error .invalidState ∧
    rejectTransferRequest 7 100 1 none w7State = .error .invalidState ∧
    cancelTransferRequest 5 .MANAGER 1 w7State = .error .invalidState ∧
    cancelSale 9 .ADMIN 1 w7SaleState = .error .invalidState ∧
    commit (approveTransferRequest 7 100 1 w7State) w7State = w7State ∧
    commit (rejectTransferRequest 7 100 1 none w7State) w7State = w7State ∧
    commit (cancelTransferRequest 5 .MANAGER 1 w7State) w7State = w7State ∧
    commit (cancelSale 9 .ADMIN 1 w7SaleState) w7SaleState = w7SaleState :=
  c7_state_machine_legality w7State 1 w7Transfer 7 100 5 .MANAGER none
    w7SaleState 1 w7Sale 9 .ADMIN (by decide) (by decide) (by decide) (by decide) (by decide)

/-- C8 counterexample: the claim says a zero quantity fails with an
invalid-quantity error and performs no write, but the code only rejects
`qty < 0`: assigning quantity 0 succeeds and appends a movement-log entry
(an ADD with `newQty = previousQty`). -/
theorem c8_zero_quantity_accepted :
    assignInventoryToWarehouse 9 1 1 0 c8State = .ok c8After ∧
    c8After.log.length = c8State.log.length + 1 := by decide

/-- C8 (amended): assigning a strictly negative quantity fails with an
invalid-quantity error and commits nothing; a zero quantity is accepted (see
the counterexample). -/
theorem c8_negative_quantity_rejected (uid i w : Nat) (q : Int) (s : State) (hq : q < 0) :
    assignInventoryToWarehouse uid i w q s = .error .invalidQuantity ∧
    commit (assignInventoryToWarehouse uid i w q s) s = s := by
  have h : assignInventoryToWarehouse uid i w q s = .error .invalidQuantity := by
    simp [assignInventoryToWarehouse, hq]
  exact ⟨h, commit_eq_of_error _ _ _ h⟩

/-- C8 witness: assigning −1 on the concrete store fails and commits
nothing. -/
theorem c8_negative_quantity_rejected_witness :
    assignInventoryToWarehouse 9 1 1 (-1) c8State = .error .invalidQuantity ∧
    commit (assignInventoryToWarehouse 9 1 1 (-1) c8State) c8State = c8State :=
  c8_negative_quantity_rejected 9 1 1 (-1) c8State (by decide)

/-- C9: on a PENDING request, reject sets REJECTED (recording approver, time
and optional reason) and cancel (by an authorized actor) sets CANCELLED; both
leave every balance row, the movement log and the sales untouched, and change
no other request. -/
theorem c9_reject_cancel_frame
    (s : State) (rid adminId now uid : Nat) (role : Role) (reason : Option String)
    (r : TransferRequest)
    (hr : findTransfer s.transfers rid = some r) (hp : r.status = .PENDING)
    (hperm : role = .MANAGER → r.createdById = uid) :
    (∃ s1, rejectTransferRequest adminId now rid reason s = .ok s1 ∧
      s1.balances = s.balances ∧ s1.log = s.log ∧ s1.sales = s.sales ∧
      findTransfer s1.transfers rid = some { r with
        status := .REJECTED, approvedById := some adminId, approvedAt := some now,
        reason := match reason with | some x => some x | none => r.reason } ∧
      ∀ rid', rid' ≠ rid → findTransfer s1.transfers rid' = findTransfer s.transfers rid') ∧
    (∃ s2, cancelTransferRequest uid role rid s = .ok s2 ∧
      s2.balances = s.balances ∧ s2.log = s.log ∧ s2.sales = s.sales ∧
      findTransfer s2.transfers rid = some { r with status := .CANCELLED } ∧
      ∀ rid', rid' ≠ rid → findTransfer s2.transfers rid' = findTransfer s.transfers rid') := by
  constructor
  · refine ⟨{ s with
        transfers := updateTransfer s.transfers rid (fun t =>
          { t with status := .REJECTED, approvedById := some adminId, approvedAt := some now,
                   reason := match reason with | some x => some x | none => t.reason }) },
      ?_, rfl, rfl, rfl, ?_, ?_⟩
    · simp [rejectTransferRequest, hr, hp]
    · rw [findTransfer_updateTransfer_self s.transfers rid (fun t =>
          { t with status := .REJECTED, approvedById := some adminId, approvedAt := some now,
                   reason := match reason with | some x => some x | none => t.reason })
        (fun t => rfl), hr]
      rfl
    · intro rid' hne
      exact findTransfer_updateTransfer_ne s.transfers rid rid' (fun t =>
        { t with status := .REJECTED, approvedById := some adminId, approvedAt := some now,
                 reason := match reason with | some x => some x | none => t.reason })
        (fun t => rfl) hne
  · have hforb : ¬ (role = .MANAGER ∧ r.createdById ≠ uid) := fun hk => hk.2 (hperm hk.1)
    refine ⟨{ s with
        transfers := updateTransfer s.transfers rid (fun t => { t with status := .CANCELLED }) },
      ?_, rfl, rfl, rfl, ?_, ?_⟩
    · simp [cancelTransferRequest, hr, hp, hforb]
    · rw [findTransfer_updateTransfer_self s.transfers rid
        (fun t => { t with status := TRStatus.CANCELLED }) (fun t => rfl), hr]
      rfl
    · intro rid' hne
      exact findTransfer_updateTransfer_ne s.transfers rid rid'
        (fun t => { t with status := TRStatus.CANCELLED }) (fun t => rfl) hne

/-- C9 witness: rejecting and cancelling the concrete pending request
`wTransfer` by an admin have the stated effects on `wState`. -/
theorem c9_reject_cancel_frame_witness :
    (∃ s1, rejectTransferRequest 7 100 1 none wState = .ok s1 ∧
      s1.balances = wState.balances ∧ s1.log = wState.log ∧ s1.sales = wState.sales ∧
      findTransfer s1.transfers 1 = some { wTransfer with
        status := .REJECTED, approvedById := some 7, approvedAt := some 100,
        reason := match (none : Option String) with | some x => some x | none => wTransfer.reason } ∧
      ∀ rid', rid' ≠ 1 → findTransfer s1.transfers rid' = findTransfer wState.transfers rid') ∧
    (∃ s2, cancelTransferRequest 9 .ADMIN 1 wState = .ok s2 ∧
      s2.balances = wState.balances ∧ s2.log = wState.log ∧ s2.sales = wState.sales ∧
      findTransfer s2.transfers 1 = some { wTransfer with status := .CANCELLED } ∧
      ∀ rid', rid' ≠ 1 → findTransfer s2.transfers rid' = findTransfer wState.transfers rid') :=
  c9_reject_cancel_frame wState 1 7 100 9 .ADMIN none wTransfer (by decide) (by decide)
    (by decide)

/-- C10: cancelling the concrete non-cancelled sale `c10Sale`, whose second
line's (warehouse, item) row is absent, still sets the sale to CANCELLED but
silently skips that line — its quantity is not credited back (the row stays
absent) and no log entry is written for it — while the existing row of the
first line is credited (5 + 2 = 7) and logged. -/
theorem c10_cancel_skips_missing_rows :
    cancelSale 9 .ADMIN 1 c10State = .ok c10After ∧
    findSale c10After.sales 1 = some { c10Sale with status := .CANCELLED } ∧
    getBalance c10After 1 1 = 7 ∧
    findRow c10After.balances 1 2 = none ∧
    c10After.log.length = 1 ∧
    (∀ e ∈ c10After.log, e.inventoryId = 1 ∧ e.action = .ADJUSTMENT) := by decide

end StockTrack
